import Mathlib

/-!
# Verification of the Project Tracking System server (src/server.js)

Shallow embedding of the Express handlers in `server.js`. JSON records are
modelled as association lists of (key, value) pairs where the *last* binding
for a key wins: this matches JavaScript object-spread semantics, where
`{...a, ...b}` lets `b`'s keys override `a`'s, so spreading is list append.

JavaScript integers in scope (counts, budgets) are exact in binary64 and
modelled as `Int`; the one non-integer computation, the progress
percentage's `(completed / total) * 100`, is evaluated in IEEE-754 binary64
and is modelled operation-by-operation with `roundToDouble`, the correct
rounding of an exact rational to the nearest double (round-to-nearest,
ties-to-even). `Math.round` is specified by ECMA-262 mathematically on the
double's exact value and is modelled as ⌊x + 1/2⌋. The system clock (`new Date().toISOString()`) is modelled by a string
parameter `now` supplied per request, and `generateId()` by a string
parameter `gen`; both calls to `new Date()` inside one handler are taken at
the same instant. File I/O: `readDataFile` returns the parsed array or
`null` on any failure, modelled as `Option (List Record)`; a write that can
fail is modelled by a `writeOk : Bool` parameter.
-/

namespace ProjectTracking

/-- A JSON-ish value as stored in the data files. -/
inductive Value where
  | vstr  : String → Value
  | vnum  : Int → Value
  | vbool : Bool → Value
  | vnull : Value
deriving DecidableEq, Repr

/-- A JavaScript object: association list, later bindings override earlier
ones (object-spread semantics). -/
abbrev Record := List (String × Value)

/-- Field access `r.k`: the last binding of `k` in `r`, if any.
`none` models the field being absent (JS `undefined`). -/
def getF : Record → String → Option Value
  | [], _ => none
  | p :: rest, k =>
    match getF rest k with
    | some v => some v
    | none => if p.1 = k then some p.2 else none

theorem getF_append_some {b : Record} {k : String} {v : Value}
    (a : Record) (h : getF b k = some v) : getF (a ++ b) k = some v := by
  induction a with
  | nil => simpa using h
  | cons p a ih => simp [getF, ih]

theorem getF_append_none {b : Record} {k : String}
    (a : Record) (h : getF b k = none) : getF (a ++ b) k = getF a k := by
  induction a with
  | nil => simpa using h
  | cons p a ih => simp [getF, ih]

/-- `p.id === id` — the predicate used by `find`/`findIndex`/`filter`
throughout `server.js`. -/
def recordIdIs (r : Record) (id : String) : Bool :=
  decide (getF r "id" = some (Value.vstr id))

/-- `collection.find(p => p.id === id)` (GET /api/projects/:id and friends). -/
def getById (rs : List Record) (id : String) : Option Record :=
  rs.find? (fun r => recordIdIs r id)

/-- The new record built by POST /api/projects (server.js:163-168) and
POST /api/tasks (server.js:256-261):
`{ id: generateId(), ...req.body, createdAt: now, updatedAt: now }`. -/
def createRecord (body : Record) (gen now : String) : Record :=
  ("id", Value.vstr gen) :: body ++
    [("createdAt", Value.vstr now), ("updatedAt", Value.vstr now)]

/-- POST /api/projects (server.js:159-177) / POST /api/tasks (253-270):
build the new record, push it, write. Returns (response record, stored
collection after the request). -/
def postRecord (rs : List Record) (body : Record) (gen now : String) :
    Record × List Record :=
  let newRecord := createRecord body gen now
  (newRecord, rs ++ [newRecord])

/-- `findIndex` on `id` followed by in-place replacement of the first match
by `upd` of the old record; `none` models the 404 branch. Shared shape of
the three PUT handlers. -/
def setFirstMatch (id : String) (upd : Record → Record) :
    List Record → Option (Record × List Record)
  | [] => none
  | r :: rest =>
    if recordIdIs r id then
      some (upd r, upd r :: rest)
    else
      match setFirstMatch id upd rest with
      | none => none
      | some (u, rest') => some (u, r :: rest')

/-- PUT /api/projects/:id (server.js:183-204) and PUT /api/tasks/:id
(276-296): `{...old, ...req.body, id: req.params.id, updatedAt: now}`. -/
def updateById (rs : List Record) (id : String) (body : Record)
    (now : String) : Option (Record × List Record) :=
  setFirstMatch id
    (fun r => r ++ body ++ [("id", Value.vstr id), ("updatedAt", Value.vstr now)]) rs

/-- PUT /api/resources/:id (server.js:361-380): same, without updatedAt:
`{...old, ...req.body, id: req.params.id}`. -/
def updateResourceById (rs : List Record) (id : String) (body : Record) :
    Option (Record × List Record) :=
  setFirstMatch id (fun r => r ++ body ++ [("id", Value.vstr id)]) rs

/-- Outcome of a DELETE request as reported to the client. -/
inductive DeleteResult where
  | success
  | notFound
  | writeFailed
deriving DecidableEq, Repr

/-- DELETE /api/projects/:id (server.js:210-223) / DELETE /api/tasks/:id
(302-315): filter out the id; write only when the length shrank, else 404
with no write. Returns (client outcome, stored collection after). -/
def deleteById (writeOk : Bool) (rs : List Record) (id : String) :
    DeleteResult × List Record :=
  let filtered := rs.filter (fun r => !(recordIdIs r id))
  if filtered.length < rs.length then
    if writeOk then (.success, filtered) else (.writeFailed, rs)
  else
    (.notFound, rs)

/-- Removes a key from a record: models destructuring
`const { password, ...rest } = user`. -/
def removeField (r : Record) (k : String) : Record :=
  r.filter (fun p => !(decide (p.1 = k)))

/-- `u => u.username === username && u.password === password`
(server.js:88). -/
def credsMatch (username password : String) (u : Record) : Bool :=
  decide (getF u "username" = some (Value.vstr username)) &&
  decide (getF u "password" = some (Value.vstr password))

/-- What POST /api/login reports to the client. -/
inductive LoginOutcome where
  | ok : Record → LoginOutcome
  | invalid : String → LoginOutcome
  | unavailable : LoginOutcome
deriving DecidableEq, Repr

/-- POST /api/login (server.js:77-104). `store = none` models
`readDataFile` returning null; the handler checks it (line 83) and
returns 500. -/
def login (store : Option (List Record)) (username password : String) :
    LoginOutcome :=
  match store with
  | none => .unavailable
  | some users =>
    match users.find? (credsMatch username password) with
    | some u => .ok (removeField u "password")
    | none => .invalid "Invalid username or password"

/-- `p.budget || 0` for a numeric-or-absent field: the value when present
and numeric, else 0 (absent gives `undefined || 0 = 0`; a numeric 0 is
falsy so `0 || 0 = 0` agrees). -/
def numField (r : Record) (k : String) : Int :=
  match getF r k with
  | some (.vnum n) => n
  | _ => 0

/-- `r.k === "s"` as a Bool, for status/projectId filters. -/
def strFieldIs (r : Record) (k s : String) : Bool :=
  decide (getF r k = some (Value.vstr s))

/-- The body of GET /api/reports/dashboard (server.js:396-407). -/
structure DashboardStats where
  totalProjects : Nat
  activeProjects : Nat
  totalTasks : Nat
  completedTasks : Nat
  inProgressTasks : Nat
  totalResources : Nat
  totalBudget : Int
  budgetSpent : Int
deriving DecidableEq, Repr

/-- GET /api/reports/dashboard (server.js:390-410), given already-read
collections. -/
def dashboard (projects tasks resources : List Record) : DashboardStats where
  totalProjects := projects.length
  activeProjects := (projects.filter (fun p => strFieldIs p "status" "active")).length
  totalTasks := tasks.length
  completedTasks := (tasks.filter (fun t => strFieldIs t "status" "completed")).length
  inProgressTasks := (tasks.filter (fun t => strFieldIs t "status" "in-progress")).length
  totalResources := resources.length
  totalBudget := projects.foldl (fun sum p => sum + numField p "budget") 0
  budgetSpent := projects.foldl (fun sum p => sum + numField p "budgetSpent") 0

/-- `Math.round`: round half toward +∞, i.e. ⌊x + 1/2⌋. (ECMA-262:
Math.round(x) is the integer closest to x, ties toward +∞ — defined on the
exact mathematical value of the double argument.) -/
def mathRound (q : ℚ) : Int := ⌊q + 1 / 2⌋

/-- Rounds a rational to the nearest integer, ties to even (the tie rule of
IEEE-754 round-to-nearest-even). -/
def rneInt (x : ℚ) : ℤ :=
  if x - ⌊x⌋ < 1 / 2 then ⌊x⌋
  else if 1 / 2 < x - ⌊x⌋ then ⌊x⌋ + 1
  else if ⌊x⌋ % 2 = 0 then ⌊x⌋ else ⌊x⌋ + 1

/-- Correctly rounds an exact rational to the nearest IEEE-754 binary64
value (round-to-nearest, ties-to-even): 53-bit significand, exponent
clamped at -1022 so subnormal magnitudes round on the 2^(-1074) grid.
Overflow to infinity is not modelled; every value arising in this program's
percentage computation lies in [0, 100]. -/
def roundToDouble (q : ℚ) : ℚ :=
  if q = 0 then 0
  else
    let e : ℤ := max (Int.log 2 |q|) (-1022)
    let ulp : ℚ := (2 : ℚ) ^ (e - 52)
    (if q < 0 then -1 else 1) * (rneInt (|q| / ulp) : ℚ) * ulp

/-- JavaScript `a / b` on exactly-represented operands: the correctly
rounded double of the exact quotient. -/
def jsDiv (a b : ℚ) : ℚ := roundToDouble (a / b)

/-- JavaScript `a * b` on exactly-represented operands: the correctly
rounded double of the exact product. -/
def jsMul (a b : ℚ) : ℚ := roundToDouble (a * b)

/-- The body of GET /api/reports/project-progress/:projectId
(server.js:424-431). -/
structure ProgressStats where
  projectId : String
  totalTasks : Nat
  completedTasks : Nat
  inProgressTasks : Nat
  pendingTasks : Nat
  progressPercentage : Int
deriving DecidableEq, Repr

/-- GET /api/reports/project-progress/:projectId (server.js:416-432), given
the already-read task collection. Line 422 computes
`(completedTasks / totalTasks) * 100` in binary64: one double division
followed by one double multiplication, then `Math.round` (line 430). -/
def projectProgress (tasks : List Record) (pid : String) : ProgressStats :=
  let projectTasks := tasks.filter (fun t => strFieldIs t "projectId" pid)
  let totalTasks := projectTasks.length
  let completedTasks :=
    (projectTasks.filter (fun t => strFieldIs t "status" "completed")).length
  let progressPercentage : ℚ :=
    if totalTasks > 0 then jsMul (jsDiv (completedTasks : ℚ) (totalTasks : ℚ)) 100
    else 0
  { projectId := pid
    totalTasks := totalTasks
    completedTasks := completedTasks
    inProgressTasks :=
      (projectTasks.filter (fun t => strFieldIs t "status" "in-progress")).length
    pendingTasks :=
      (projectTasks.filter (fun t => strFieldIs t "status" "pending")).length
    progressPercentage := mathRound progressPercentage }

/-!
## Endpoint wrappers over a possibly-unreadable store

`readDataFile` returns `null` on a missing or malformed file; a handler that
checks (`if (!xs) return 500`) yields `unavailable`, while a handler that
dereferences the null (`xs.find(...)`, `xs.push(...)`, `xs.length`) throws a
TypeError, modelled as `crash` — Express then answers with its default error
page, not the handler's service-unavailable JSON.
-/

/-- HTTP-level outcome of a request. -/
inductive ApiOutcome (α : Type) where
  | ok : α → ApiOutcome α
  | notFound : ApiOutcome α
  | unavailable : ApiOutcome α
  | crash : ApiOutcome α
deriving DecidableEq, Repr

/-- GET /api/projects (server.js:130-138): checks for null, 500 branch. -/
def listProjectsEndpoint (store : Option (List Record)) :
    ApiOutcome (List Record) :=
  match store with
  | none => .unavailable
  | some ps => .ok ps

/-- GET /api/users (server.js:110-120): checks for null, strips passwords. -/
def listUsersEndpoint (store : Option (List Record)) :
    ApiOutcome (List Record) :=
  match store with
  | none => .unavailable
  | some us => .ok (us.map (fun u => removeField u "password"))

/-- GET /api/tasks (server.js:233-247): checks for null; optional projectId
filter. -/
def listTasksEndpoint (store : Option (List Record))
    (projectId : Option String) : ApiOutcome (List Record) :=
  match store with
  | none => .unavailable
  | some ts =>
    match projectId with
    | some pid => .ok (ts.filter (fun t => strFieldIs t "projectId" pid))
    | none => .ok ts

/-- GET /api/resources (server.js:325-333): checks for null. -/
def listResourcesEndpoint (store : Option (List Record)) :
    ApiOutcome (List Record) :=
  match store with
  | none => .unavailable
  | some rs => .ok rs

/-- POST /api/login as an endpoint outcome (checks for null,
server.js:83-85). -/
def loginEndpoint (store : Option (List Record)) (username password : String) :
    ApiOutcome Record :=
  match login store username password with
  | .ok u => .ok u
  | .invalid _ => .notFound   -- 401, distinct from ok/unavailable/crash
  | .unavailable => .unavailable

/-- GET /api/projects/:id (server.js:144-153): NO null check — line 146
calls `projects.find` on the null, throwing a TypeError. -/
def getProjectEndpoint (store : Option (List Record)) (id : String) :
    ApiOutcome Record :=
  match store with
  | none => .crash
  | some ps =>
    match getById ps id with
    | some p => .ok p
    | none => .notFound

/-- POST /api/projects (server.js:159-177): NO null check — line 170 calls
`projects.push` on the null. Second component: stored collection after. -/
def postProjectEndpoint (store : Option (List Record)) (body : Record)
    (gen now : String) (writeOk : Bool) :
    ApiOutcome Record × Option (List Record) :=
  match store with
  | none => (.crash, none)
  | some ps =>
    let (newRecord, ps') := postRecord ps body gen now
    if writeOk then (.ok newRecord, some ps') else (.unavailable, some ps)

/-- PUT /api/projects/:id (server.js:183-204): NO null check — line 185
calls `projects.findIndex` on the null. -/
def putProjectEndpoint (store : Option (List Record)) (id : String)
    (body : Record) (now : String) (writeOk : Bool) :
    ApiOutcome Record × Option (List Record) :=
  match store with
  | none => (.crash, none)
  | some ps =>
    match updateById ps id body now with
    | none => (.notFound, some ps)
    | some (u, ps') =>
      if writeOk then (.ok u, some ps') else (.unavailable, some ps)

/-- DELETE /api/projects/:id (server.js:210-223): NO null check — line 212
calls `projects.filter` on the null. -/
def deleteProjectEndpoint (store : Option (List Record)) (id : String)
    (writeOk : Bool) : ApiOutcome Unit × Option (List Record) :=
  match store with
  | none => (.crash, none)
  | some ps =>
    match deleteById writeOk ps id with
    | (.success, ps') => (.ok (), some ps')
    | (.notFound, ps') => (.notFound, some ps')
    | (.writeFailed, ps') => (.unavailable, some ps')

/-- GET /api/reports/dashboard (server.js:390-410): NO null checks — line
397 reads `projects.length` etc. on whatever `readDataFile` returned. -/
def dashboardEndpoint (projects tasks resources : Option (List Record)) :
    ApiOutcome DashboardStats :=
  match projects, tasks, resources with
  | some ps, some ts, some rs => .ok (dashboard ps ts rs)
  | _, _, _ => .crash

/-- GET /api/reports/project-progress/:projectId (server.js:416-432): NO
null check — line 418 calls `tasks.filter` on the null. -/
def progressEndpoint (tasks : Option (List Record)) (pid : String) :
    ApiOutcome ProgressStats :=
  match tasks with
  | none => .crash
  | some ts => .ok (projectProgress ts pid)

/-!
## Concrete fixtures used by witnesses and counterexamples
-/

/-- Four tasks of project "p", exactly one completed. -/
def exTasks : List Record :=
  [ [("id", Value.vstr "t1"), ("projectId", Value.vstr "p"), ("status", Value.vstr "completed")]
  , [("id", Value.vstr "t2"), ("projectId", Value.vstr "p"), ("status", Value.vstr "pending")]
  , [("id", Value.vstr "t3"), ("projectId", Value.vstr "p"), ("status", Value.vstr "in-progress")]
  , [("id", Value.vstr "t4"), ("projectId", Value.vstr "p"), ("status", Value.vstr "pending")] ]

/-- Forty tasks of project "p", exactly 23 completed: a rounding-boundary
input for the progress percentage (100×23/40 = 57.5, but the double
computation lands just below). -/
def exTasks40 : List Record :=
  (List.range 40).map (fun i =>
    [("id", Value.vnum i), ("projectId", Value.vstr "p"),
     ("status", Value.vstr (if i < 23 then "completed" else "pending"))])

/-- A stored user record. -/
def exUser : Record :=
  [("id", Value.vstr "u1"), ("username", Value.vstr "alice"),
   ("password", Value.vstr "pw"), ("name", Value.vstr "Alice")]

/-- Two stored projects with ids "a" and "b". -/
def exProjA : Record := [("id", Value.vstr "a")]

def exProjB : Record := [("id", Value.vstr "b")]

/-- The record produced by PUT /api/projects/b with body `{x: 1}` at time
"t" on `exProjB` (spread keeps superseded bindings in the list; lookup is
last-wins). -/
def exProjBUpdated : Record :=
  [("id", Value.vstr "b"), ("x", Value.vnum 1),
   ("id", Value.vstr "b"), ("updatedAt", Value.vstr "t")]

/-- The record produced by PUT /api/resources/b with body `{x: 1}` on
`exProjB` (no updatedAt). -/
def exResBUpdated : Record :=
  [("id", Value.vstr "b"), ("x", Value.vnum 1), ("id", Value.vstr "b")]

/-!
## Helper lemmas
-/

theorem getF_removeField_self (r : Record) (k : String) :
    getF (removeField r k) k = none := by
  induction r with
  | nil => rfl
  | cons p rest ih =>
    simp only [removeField, List.filter_cons] at ih ⊢
    by_cases hp : p.1 = k
    · simpa [hp] using ih
    · simp [hp, getF, ih]

theorem getF_removeField_ne (r : Record) {k k' : String} (h : k' ≠ k) :
    getF (removeField r k) k' = getF r k' := by
  induction r with
  | nil => rfl
  | cons p rest ih =>
    simp only [removeField, List.filter_cons] at ih ⊢
    by_cases hp : p.1 = k
    · have hne : ¬p.1 = k' := fun e => h (e.symm.trans hp)
      cases hg : getF rest k' with
      | none => simp [hp, getF, hg, Ne.symm h, hg ▸ ih]
      | some v => simp [hp, getF, hg, hg ▸ ih]
    · simp [hp, getF, ih]

theorem find?_append_of_forall_false {α : Type} {p : α → Bool}
    {l₁ : List α} (l₂ : List α) (h : ∀ x ∈ l₁, p x = false) :
    (l₁ ++ l₂).find? p = l₂.find? p := by
  induction l₁ with
  | nil => rfl
  | cons a l ih =>
    have ha : p a = false := h a (by simp)
    simp only [List.cons_append, List.find?, ha]
    exact ih (fun x hx => h x (by simp [hx]))

theorem foldl_add_map (f : Record → Int) (l : List Record) (a : Int) :
    l.foldl (fun sum r => sum + f r) a = a + (l.map f).sum := by
  induction l generalizing a with
  | nil => simp
  | cons r rest ih => simp [ih, add_assoc]

theorem setFirstMatch_length {id : String} {upd : Record → Record} :
    ∀ {rs u rs'}, setFirstMatch id upd rs = some (u, rs') →
      rs'.length = rs.length := by
  intro rs
  induction rs with
  | nil => intro u rs' h; simp [setFirstMatch] at h
  | cons r rest ih =>
    intro u rs' h
    simp only [setFirstMatch] at h
    split at h
    · simp only [Option.some.injEq, Prod.mk.injEq] at h
      obtain ⟨rfl, rfl⟩ := h
      simp
    · cases hrec : setFirstMatch id upd rest with
      | none => rw [hrec] at h; exact absurd h (by simp)
      | some pr =>
        obtain ⟨u0, rest'⟩ := pr
        rw [hrec] at h
        simp only [Option.some.injEq, Prod.mk.injEq] at h
        obtain ⟨rfl, rfl⟩ := h
        simp [ih hrec]

theorem int_log2_eq {q : ℚ} {e : ℤ} (hq : 0 < q) (h1 : (2 : ℚ) ^ e ≤ q)
    (h2 : q < (2 : ℚ) ^ (e + 1)) : Int.log 2 q = e := by
  have hb : (1 : ℕ) < 2 := one_lt_two
  have hlo : e ≤ Int.log 2 q :=
    (Int.zpow_le_iff_le_log hb hq).mp (by exact_mod_cast h1)
  have hhi : Int.log 2 q < e + 1 :=
    (Int.lt_zpow_iff_log_lt hb hq).mp (by exact_mod_cast h2)
  omega

theorem roundToDouble_eq {q : ℚ} {e : ℤ} (hq : 0 < q)
    (h1 : (2 : ℚ) ^ e ≤ q) (h2 : q < (2 : ℚ) ^ (e + 1)) (he : -1022 ≤ e) :
    roundToDouble q
      = (rneInt (q / (2 : ℚ) ^ (e - 52)) : ℚ) * (2 : ℚ) ^ (e - 52) := by
  have habs : |q| = q := abs_of_pos hq
  have hlog : Int.log 2 q = e := int_log2_eq hq h1 h2
  have hmax : max (Int.log 2 q) (-1022) = e := by rw [hlog]; exact max_eq_left he
  simp only [roundToDouble, if_neg hq.ne', habs, hmax, if_neg (not_lt.mpr hq.le)]
  ring

theorem jsDiv_one_quarter : jsDiv 1 4 = 1 / 4 := by
  have h := roundToDouble_eq (show (0 : ℚ) < 1 / 4 by norm_num)
      (show (2 : ℚ) ^ (-2 : ℤ) ≤ 1 / 4 by norm_num)
      (show (1 : ℚ) / 4 < (2 : ℚ) ^ ((-2 : ℤ) + 1) by norm_num)
      (show (-1022 : ℤ) ≤ -2 by norm_num)
  simp only [jsDiv]
  rw [h]
  norm_num [rneInt]

theorem jsMul_quarter_100 : jsMul (1 / 4) 100 = 25 := by
  have h := roundToDouble_eq (show (0 : ℚ) < 1 / 4 * 100 by norm_num)
      (show (2 : ℚ) ^ (4 : ℤ) ≤ 1 / 4 * 100 by norm_num)
      (show (1 : ℚ) / 4 * 100 < (2 : ℚ) ^ ((4 : ℤ) + 1) by norm_num)
      (show (-1022 : ℤ) ≤ 4 by norm_num)
  simp only [jsMul]
  rw [h]
  norm_num [rneInt]

theorem jsDiv_23_40 : jsDiv 23 40 = 2589569785738035 / 4503599627370496 := by
  have h := roundToDouble_eq (show (0 : ℚ) < 23 / 40 by norm_num)
      (show (2 : ℚ) ^ (-1 : ℤ) ≤ 23 / 40 by norm_num)
      (show (23 : ℚ) / 40 < (2 : ℚ) ^ ((-1 : ℤ) + 1) by norm_num)
      (show (-1022 : ℤ) ≤ -1 by norm_num)
  simp only [jsDiv]
  rw [h]
  norm_num [rneInt]

theorem jsMul_2340_100 :
    jsMul (2589569785738035 / 4503599627370496) 100
      = 8092405580431359 / 140737488355328 := by
  have h := roundToDouble_eq
      (show (0 : ℚ) < 2589569785738035 / 4503599627370496 * 100 by norm_num)
      (show (2 : ℚ) ^ (5 : ℤ) ≤ 2589569785738035 / 4503599627370496 * 100 by
        norm_num)
      (show (2589569785738035 : ℚ) / 4503599627370496 * 100
          < (2 : ℚ) ^ ((5 : ℤ) + 1) by norm_num)
      (show (-1022 : ℤ) ≤ 5 by norm_num)
  simp only [jsMul]
  rw [h]
  norm_num [rneInt]

theorem projectProgress_formula (tasks : List Record) (pid : String) :
    (projectProgress tasks pid).progressPercentage =
      if (projectProgress tasks pid).totalTasks = 0 then 0
      else mathRound (jsMul (jsDiv ((projectProgress tasks pid).completedTasks : ℚ)
        ((projectProgress tasks pid).totalTasks : ℚ)) 100) := by
  simp only [projectProgress]
  by_cases ht : (tasks.filter (fun t => strFieldIs t "projectId" pid)).length = 0
  · simp [ht, mathRound]
    norm_num
  · have hpos : 0 < (tasks.filter (fun t => strFieldIs t "projectId" pid)).length :=
      Nat.pos_of_ne_zero ht
    simp only [ht, hpos, if_pos, if_neg, not_false_eq_true]

theorem createRecord_createdAt (body : Record) (gen now : String) :
    getF (createRecord body gen now) "createdAt" = some (Value.vstr now) :=
  getF_append_some (("id", Value.vstr gen) :: body) (rfl :
    getF [("createdAt", Value.vstr now), ("updatedAt", Value.vstr now)]
      "createdAt" = some (Value.vstr now))

theorem createRecord_updatedAt (body : Record) (gen now : String) :
    getF (createRecord body gen now) "updatedAt" = some (Value.vstr now) :=
  getF_append_some (("id", Value.vstr gen) :: body) (rfl :
    getF [("createdAt", Value.vstr now), ("updatedAt", Value.vstr now)]
      "updatedAt" = some (Value.vstr now))

theorem createRecord_id {body : Record} (gen now : String)
    (hbody : getF body "id" = none) :
    getF (createRecord body gen now) "id" = some (Value.vstr gen) := by
  have htail : getF [("createdAt", Value.vstr now), ("updatedAt", Value.vstr now)]
      "id" = none := rfl
  have hb : getF (body ++ [("createdAt", Value.vstr now), ("updatedAt", Value.vstr now)])
      "id" = none := (getF_append_none body htail).trans hbody
  simp [createRecord, getF, hb]

theorem setFirstMatch_frame {id : String} {upd : Record → Record}
    (hupd : ∀ r, getF (upd r) "id" = some (Value.vstr id)) :
    ∀ {rs u rs'}, setFirstMatch id upd rs = some (u, rs') →
      ∀ j (hj' : j < rs'.length) (hj : j < rs.length),
        getF (rs'.get ⟨j, hj'⟩) "id" ≠ some (Value.vstr id) →
          rs'.get ⟨j, hj'⟩ = rs.get ⟨j, hj⟩ := by
  intro rs
  induction rs with
  | nil => intro u rs' h; simp [setFirstMatch] at h
  | cons r rest ih =>
    intro u rs' h j hj' hj hne
    simp only [setFirstMatch] at h
    split at h
    · simp only [Option.some.injEq, Prod.mk.injEq] at h
      obtain ⟨rfl, rfl⟩ := h
      cases j with
      | zero => exact absurd (hupd r) hne
      | succ j => rfl
    · cases hrec : setFirstMatch id upd rest with
      | none => rw [hrec] at h; exact absurd h (by simp)
      | some pr =>
        obtain ⟨u0, rest'⟩ := pr
        rw [hrec] at h
        simp only [Option.some.injEq, Prod.mk.injEq] at h
        obtain ⟨rfl, rfl⟩ := h
        cases j with
        | zero => rfl
        | succ j =>
          exact ih hrec j (Nat.lt_of_succ_lt_succ (by simpa using hj'))
            (Nat.lt_of_succ_lt_succ (by simpa using hj)) hne

/-!
## Claim theorems
-/

/-- C1: the claim says `update(id, partialRecord)` always preserves the
stored record's `createdAt` regardless of what the caller sent. The code
(server.js:189-194, identically 281-285 for tasks) spreads `req.body` after
the stored record and re-pins only `id` and `updatedAt`, so a caller-supplied
`createdAt` overrides the stored one — contradicting the code's own comment
"Update project while preserving ID and creation date" (server.js:188).
This theorem evaluates the handler at the failing input: stored project
`{id: "p1", createdAt: "2020-01-01"}`, body `{createdAt: "1999-01-01"}`,
clock "2024-01-01": the returned record's createdAt is the caller's
"1999-01-01", while id is preserved and updatedAt is refreshed. -/
theorem c1_update_overrides_createdAt :
    (updateById [[("id", Value.vstr "p1"), ("createdAt", Value.vstr "2020-01-01")]]
        "p1" [("createdAt", Value.vstr "1999-01-01")] "2024-01-01").map
        (fun x => (getF x.1 "createdAt", getF x.1 "id", getF x.1 "updatedAt"))
      = some (some (Value.vstr "1999-01-01"), some (Value.vstr "p1"),
          some (Value.vstr "2024-01-01")) := by decide

/-- C2 counterexample: the claim says every endpoint surfaces an unreadable
store as the distinguished service-unavailable response. GET
/api/projects/:id (server.js:144-153) has no null check: on a null store it
dereferences the null (`projects.find`), throwing a TypeError instead of
returning the handler's 500 JSON. -/
theorem c2_counterexample :
    getProjectEndpoint none "p1" = ApiOutcome.crash ∧
      getProjectEndpoint none "p1" ≠ ApiOutcome.unavailable := by decide

/-- C2, amended: `readDataFile` does yield a distinguished null on read
failure, and the handlers that check it (login, users list, projects list,
tasks list, resources list) return the 500 service-unavailable JSON; but
get-by-id, create, update, delete, and both report endpoints do not check
and instead throw a TypeError on the null. -/
theorem c2_amended_unavailable_handling :
    (∀ u p, login none u p = LoginOutcome.unavailable) ∧
    listProjectsEndpoint none = ApiOutcome.unavailable ∧
    listUsersEndpoint none = ApiOutcome.unavailable ∧
    (∀ pid, listTasksEndpoint none pid = ApiOutcome.unavailable) ∧
    listResourcesEndpoint none = ApiOutcome.unavailable ∧
    (∀ id, getProjectEndpoint none id = ApiOutcome.crash) ∧
    (∀ body gen now w, (postProjectEndpoint none body gen now w).1 = ApiOutcome.crash) ∧
    (∀ id body now w, (putProjectEndpoint none id body now w).1 = ApiOutcome.crash) ∧
    (∀ id w, (deleteProjectEndpoint none id w).1 = ApiOutcome.crash) ∧
    (∀ ts rs, dashboardEndpoint none ts rs = ApiOutcome.crash) ∧
    (∀ ps rs, dashboardEndpoint ps none rs = ApiOutcome.crash) ∧
    (∀ pid, progressEndpoint none pid = ApiOutcome.crash) := by
  refine ⟨fun u p => rfl, rfl, rfl, fun pid => rfl, rfl, fun id => rfl,
    fun body gen now w => rfl, fun id body now w => rfl, fun id w => rfl,
    fun ts rs => rfl, fun ps rs => ?_, fun pid => rfl⟩
  cases ps <;> rfl

/-- C3 counterexample: the claim says the server-assigned id always wins on
create and the assigned id was not previously in the collection. POST
/api/projects (server.js:163-168) spreads `req.body` *after* the generated
id, so a caller-supplied id overrides it; with a stored project `{id: "x"}`
and body `{id: "x"}`, the returned record's id is "x" — not the generated
"g" — and "x" was already present. -/
theorem c3_counterexample :
    getF (postRecord [[("id", Value.vstr "x")]] [("id", Value.vstr "x")] "g" "t").1 "id"
        = some (Value.vstr "x") ∧
    getF (postRecord [[("id", Value.vstr "x")]] [("id", Value.vstr "x")] "g" "t").1 "id"
        ≠ some (Value.vstr "g") ∧
    getById [[("id", Value.vstr "x")]] "x" ≠ none := by decide

/-- C3, amended: on create the server-assigned createdAt/updatedAt always
win (they are spread after the body), but the generated id wins only when
the caller's payload lacks an `id` field; nothing checks the resulting id
against the collection. -/
theorem c3_amended_create_fields :
    (∀ ps body gen now,
      getF (postRecord ps body gen now).1 "createdAt" = some (Value.vstr now) ∧
      getF (postRecord ps body gen now).1 "updatedAt" = some (Value.vstr now)) ∧
    (∀ ps body gen now, getF body "id" = none →
      getF (postRecord ps body gen now).1 "id" = some (Value.vstr gen)) :=
  ⟨fun _ body gen now =>
    ⟨createRecord_createdAt body gen now, createRecord_updatedAt body gen now⟩,
   fun _ _ gen now hbody => createRecord_id gen now hbody⟩

/-- Witness for the amended C3 at a concrete input. -/
theorem c3_witness :
    getF (postRecord [] [("name", Value.vstr "n")] "g" "t").1 "id"
      = some (Value.vstr "g") :=
  c3_amended_create_fields.2 [] [("name", Value.vstr "n")] "g" "t" rfl

/-- C4: DELETE /api/projects/:id (server.js:210-223; tasks 302-315) filters
out every record with the given id and writes only when the length shrank.
Hence (1) a successful delete followed by `getById` on the same id yields
not-found — and on the not-found branch the id was absent to begin with, so
`getById` yields not-found there too; (2) success is reported only if the
stored collection's length actually decreased; (3) otherwise (write
succeeding) the handler reports not-found. -/
theorem c4_delete_then_get_not_found (rs : List Record) (id : String) :
    getById (deleteById true rs id).2 id = none ∧
    (∀ w, (deleteById w rs id).1 = DeleteResult.success →
      (deleteById w rs id).2.length < rs.length) ∧
    ((deleteById true rs id).1 ≠ DeleteResult.success →
      (deleteById true rs id).1 = DeleteResult.notFound) := by
  by_cases hlt : (rs.filter (fun r => !(recordIdIs r id))).length < rs.length
  · have hst : deleteById true rs id
        = (DeleteResult.success, rs.filter (fun r => !(recordIdIs r id))) := by
      simp [deleteById, hlt]
    refine ⟨?_, ?_, ?_⟩
    · rw [hst]
      apply List.find?_eq_none.mpr
      intro r hr
      have hmem := (List.mem_filter.mp hr).2
      simpa using hmem
    · intro w hw
      cases w
      · have : deleteById false rs id = (DeleteResult.writeFailed, rs) := by
          simp [deleteById, hlt]
        rw [this] at hw
        exact absurd hw (by simp)
      · rw [hst]
        exact hlt
    · intro hns
      exact absurd (by rw [hst]) hns
  · have hle := rs.length_filter_le (fun r => !(recordIdIs r id))
    have heq : (rs.filter (fun r => !(recordIdIs r id))).length = rs.length :=
      le_antisymm hle (not_lt.mp hlt)
    have hself : rs.filter (fun r => !(recordIdIs r id)) = rs :=
      (rs.filter_sublist).eq_of_length heq
    have hall := List.filter_eq_self.mp hself
    have hst : deleteById true rs id = (DeleteResult.notFound, rs) := by
      simp [deleteById, hlt]
    refine ⟨?_, ?_, ?_⟩
    · rw [hst]
      apply List.find?_eq_none.mpr
      intro r hr
      simpa using hall r hr
    · intro w hw
      cases w
      · have : deleteById false rs id = (DeleteResult.notFound, rs) := by
          simp [deleteById, hlt]
        rw [this] at hw
        exact absurd hw (by simp)
      · rw [hst] at hw
        exact absurd hw (by simp)
    · intro _
      rw [hst]

/-- Witness for C4 at a concrete input: deleting the only record, then
looking it up, yields none, and the collection shrank. -/
theorem c4_witness :
    getById (deleteById true [[("id", Value.vstr "a")]] "a").2 "a" = none ∧
    (deleteById true [[("id", Value.vstr "a")]] "a").2.length
      < ([[("id", Value.vstr "a")]] : List Record).length :=
  ⟨(c4_delete_then_get_not_found [[("id", Value.vstr "a")]] "a").1,
   (c4_delete_then_get_not_found [[("id", Value.vstr "a")]] "a").2.1 true (by decide)⟩

/-- C5 counterexample: the claim says progressPercentage is exactly
round(100 × completed / total). The source (server.js:422) computes
`(completedTasks / totalTasks) * 100` in IEEE-754 binary64 before
Math.round; at 23 completed of 40 tasks the double product is
57.49999999999999… (just below 57.5), so the program returns 57, while
round(100 × 23/40) = round(57.5) = 58 under both rounding conventions the
spec admits. -/
theorem c5_counterexample :
    (projectProgress exTasks40 "p").totalTasks = 40 ∧
    (projectProgress exTasks40 "p").completedTasks = 23 ∧
    (projectProgress exTasks40 "p").progressPercentage = 57 ∧
    mathRound (100 * (23 : ℚ) / 40) = 58 ∧
    (projectProgress exTasks40 "p").progressPercentage
      ≠ mathRound (100 * (23 : ℚ) / 40) := by
  have ht : (projectProgress exTasks40 "p").totalTasks = 40 := by decide
  have hc : (projectProgress exTasks40 "p").completedTasks = 23 := by decide
  have hp : (projectProgress exTasks40 "p").progressPercentage = 57 := by
    rw [projectProgress_formula, ht, hc]
    norm_num
    rw [jsDiv_23_40, jsMul_2340_100]
    norm_num [mathRound]
  have hr : mathRound (100 * (23 : ℚ) / 40) = 58 := by norm_num [mathRound]
  exact ⟨ht, hc, hp, hr, by rw [hp, hr]; norm_num⟩

/-- C5 (amended): GET /api/reports/project-progress/:projectId
(server.js:416-432) returns progressPercentage exactly 0 when the project
has no tasks, and otherwise exactly Math.round of the binary64 evaluation
of (completed / total) × 100 — one double division then one double
multiplication — where total and completed count the tasks whose projectId
matches. Away from rounding boundaries this agrees with
round(100 × completed / total): on the fixture of four tasks with one
completed it returns 25 (but see the counterexample at 23 of 40). -/
theorem c5_progress_percentage :
    (∀ tasks pid,
      (projectProgress tasks pid).progressPercentage =
        if (projectProgress tasks pid).totalTasks = 0 then 0
        else mathRound
          (jsMul (jsDiv ((projectProgress tasks pid).completedTasks : ℚ)
            ((projectProgress tasks pid).totalTasks : ℚ)) 100)) ∧
    (projectProgress exTasks "p").totalTasks = 4 ∧
    (projectProgress exTasks "p").completedTasks = 1 ∧
    (projectProgress exTasks "p").progressPercentage = 25 ∧
    (projectProgress exTasks "p").progressPercentage
      = mathRound (100 * (1 : ℚ) / 4) := by
  have h25 : (projectProgress exTasks "p").progressPercentage = 25 := by
    rw [projectProgress_formula,
      show (projectProgress exTasks "p").totalTasks = 4 by decide,
      show (projectProgress exTasks "p").completedTasks = 1 by decide]
    norm_num
    rw [jsDiv_one_quarter, jsMul_quarter_100]
    norm_num [mathRound]
  refine ⟨projectProgress_formula, by decide, by decide, h25, ?_⟩
  rw [h25]
  norm_num [mathRound]

/-- C6: GET /api/reports/dashboard (server.js:390-410) computes totalBudget
as the sum of every current project's budget field and budgetSpent as the
sum of every project's budgetSpent field, a missing (or non-numeric) value
contributing 0 (`p.budget || 0`). Quantifying over every project collection
covers every state reachable by create/update/delete sequences. -/
theorem c6_dashboard_budget_sums (projects tasks resources : List Record) :
    (dashboard projects tasks resources).totalBudget
        = (projects.map (fun p => numField p "budget")).sum ∧
    (dashboard projects tasks resources).budgetSpent
        = (projects.map (fun p => numField p "budgetSpent")).sum ∧
    (∀ p : Record, getF p "budget" = none → numField p "budget" = 0) ∧
    (∀ p : Record, getF p "budgetSpent" = none → numField p "budgetSpent" = 0) := by
  refine ⟨?_, ?_, ?_, ?_⟩
  · simpa [dashboard] using foldl_add_map (fun p => numField p "budget") projects 0
  · simpa [dashboard] using foldl_add_map (fun p => numField p "budgetSpent") projects 0
  · intro p h; simp [numField, h]
  · intro p h; simp [numField, h]

/-- Witness for C6 at a concrete input: two projects, one with budget 5 and
one with no budget field, total 5. -/
theorem c6_witness :
    (dashboard [[("budget", Value.vnum 5)], []] [] []).totalBudget = 5 ∧
    numField ([] : Record) "budget" = 0 := by
  constructor
  · rw [(c6_dashboard_budget_sums [[("budget", Value.vnum 5)], []] [] []).1]
    decide
  · exact (c6_dashboard_budget_sums [] [] []).2.2.1 [] rfl

/-- C7: POST /api/login (server.js:77-104) succeeds exactly when some
stored user's username and password are both exactly equal (plain-text,
case-sensitive String equality) to the input, returning that user minus its
password field; otherwise it returns a 401 whose message is the fixed
string "Invalid username or password" — the same literal whether or not
the username exists, since the mismatch branch cannot depend on which of
the two fields failed. -/
theorem c7_login_exact_match (users : List Record) (username password : String) :
    (∀ u, users.find? (credsMatch username password) = some u →
      login (some users) username password
          = LoginOutcome.ok (removeField u "password") ∧
      getF (removeField u "password") "password" = none ∧
      (∀ k, k ≠ "password" → getF (removeField u "password") k = getF u k) ∧
      getF u "username" = some (Value.vstr username) ∧
      getF u "password" = some (Value.vstr password)) ∧
    ((∀ u ∈ users, credsMatch username password u = false) →
      login (some users) username password
        = LoginOutcome.invalid "Invalid username or password") := by
  constructor
  · intro u hu
    have hcm := List.find?_some hu
    simp only [credsMatch, Bool.and_eq_true, decide_eq_true_eq] at hcm
    exact ⟨by simp [login, hu], getF_removeField_self u "password",
      fun k hk => getF_removeField_ne u hk, hcm.1, hcm.2⟩
  · intro hall
    have hnone : users.find? (credsMatch username password) = none :=
      List.find?_eq_none.mpr (fun u hu => by simp [hall u hu])
    simp [login, hnone]

/-- Witness for C7: a correct pair logs in as the stored user minus its
password; a wrong password yields the fixed 401 message. -/
theorem c7_witness :
    login (some [exUser]) "alice" "pw"
        = LoginOutcome.ok (removeField exUser "password") ∧
    login (some [exUser]) "alice" "bad"
        = LoginOutcome.invalid "Invalid username or password" :=
  ⟨((c7_login_exact_match [exUser] "alice" "pw").1 exUser (by decide)).1,
   (c7_login_exact_match [exUser] "alice" "bad").2 (by decide)⟩

/-- C8: POST /api/projects (server.js:159-177) with a body lacking `id`,
when the generated id is not already present, stores and returns a record
whose id is the generated one, retrievable via GET /api/projects/:id
(server.js:144-153), and whose createdAt equals updatedAt (both set to the
request-time clock reading). -/
theorem c8_create_createdAt_eq_updatedAt (ps : List Record) (body : Record)
    (gen now : String) (hbody : getF body "id" = none)
    (hfresh : ∀ p ∈ ps, recordIdIs p gen = false) :
    getF (postRecord ps body gen now).1 "id" = some (Value.vstr gen) ∧
    getById (postRecord ps body gen now).2 gen
        = some (postRecord ps body gen now).1 ∧
    getF (postRecord ps body gen now).1 "createdAt"
        = getF (postRecord ps body gen now).1 "updatedAt" ∧
    getF (postRecord ps body gen now).1 "createdAt" = some (Value.vstr now) := by
  have hid : getF (createRecord body gen now) "id" = some (Value.vstr gen) :=
    createRecord_id gen now hbody
  have hrec : recordIdIs (createRecord body gen now) gen = true := by
    simp [recordIdIs, hid]
  refine ⟨hid, ?_, ?_, createRecord_createdAt body gen now⟩
  · show (ps ++ [createRecord body gen now]).find? (fun r => recordIdIs r gen)
        = some (createRecord body gen now)
    rw [find?_append_of_forall_false _ (fun p hp => hfresh p hp)]
    simp [List.find?, hrec]
  · show getF (createRecord body gen now) "createdAt"
        = getF (createRecord body gen now) "updatedAt"
    rw [createRecord_createdAt body gen now, createRecord_updatedAt body gen now]

/-- Witness for C8 at a concrete input: creating `{name: "n"}` in an empty
collection with generated id "g" at time "t". -/
theorem c8_witness :
    getF (postRecord [] [("name", Value.vstr "n")] "g" "t").1 "id"
        = some (Value.vstr "g") ∧
    getById (postRecord [] [("name", Value.vstr "n")] "g" "t").2 "g"
        = some (postRecord [] [("name", Value.vstr "n")] "g" "t").1 ∧
    getF (postRecord [] [("name", Value.vstr "n")] "g" "t").1 "createdAt"
        = getF (postRecord [] [("name", Value.vstr "n")] "g" "t").1 "updatedAt" := by
  have h := c8_create_createdAt_eq_updatedAt [] [("name", Value.vstr "n")] "g" "t"
    rfl (by decide)
  exact ⟨h.1, h.2.1, h.2.2.1⟩

/-- C9: DELETE /api/projects/:id (server.js:210-223) and DELETE
/api/tasks/:id (302-315) on an identifier absent from the collection take
the not-found branch, which performs no write: the stored collection after
is exactly the collection before. -/
theorem c9_delete_absent_no_write (w : Bool) (rs : List Record) (id : String)
    (h : ∀ r ∈ rs, recordIdIs r id = false) :
    deleteById w rs id = (DeleteResult.notFound, rs) := by
  have hself : rs.filter (fun r => !(recordIdIs r id)) = rs :=
    List.filter_eq_self.mpr (fun r hr => by simp [h r hr])
  simp [deleteById, hself]

/-- Witness for C9 at a concrete input: deleting id "a" from a collection
holding only id "b" reports not-found and leaves the collection intact. -/
theorem c9_witness :
    deleteById true [exProjB] "a" = (DeleteResult.notFound, [exProjB]) :=
  c9_delete_absent_no_write true [exProjB] "a" (by decide)

/-- C10: a successful PUT /api/projects/:id or PUT /api/tasks/:id
(server.js:183-204, 276-296; both embedded by `updateById`) and a
successful PUT /api/resources/:id (361-380) write a collection of the same
length and order in which every record whose id field differs from the
targeted id is unchanged field-for-field: `findIndex` locates the first
match and only that index is reassigned. -/
theorem c10_update_frame :
    (∀ rs id body now u rs', updateById rs id body now = some (u, rs') →
      rs'.length = rs.length ∧
      ∀ j (hj' : j < rs'.length) (hj : j < rs.length),
        getF (rs'.get ⟨j, hj'⟩) "id" ≠ some (Value.vstr id) →
          rs'.get ⟨j, hj'⟩ = rs.get ⟨j, hj⟩) ∧
    (∀ rs id body u rs', updateResourceById rs id body = some (u, rs') →
      rs'.length = rs.length ∧
      ∀ j (hj' : j < rs'.length) (hj : j < rs.length),
        getF (rs'.get ⟨j, hj'⟩) "id" ≠ some (Value.vstr id) →
          rs'.get ⟨j, hj'⟩ = rs.get ⟨j, hj⟩) := by
  constructor
  · intro rs id body now u rs' h
    have hupd : ∀ r : Record,
        getF (r ++ body ++ [("id", Value.vstr id), ("updatedAt", Value.vstr now)])
          "id" = some (Value.vstr id) := fun r =>
      getF_append_some (r ++ body) (rfl :
        getF [("id", Value.vstr id), ("updatedAt", Value.vstr now)] "id"
          = some (Value.vstr id))
    exact ⟨setFirstMatch_length h, setFirstMatch_frame hupd h⟩
  · intro rs id body u rs' h
    have hupd : ∀ r : Record,
        getF (r ++ body ++ [("id", Value.vstr id)]) "id"
          = some (Value.vstr id) := fun r =>
      getF_append_some (r ++ body) (rfl :
        getF [("id", Value.vstr id)] "id" = some (Value.vstr id))
    exact ⟨setFirstMatch_length h, setFirstMatch_frame hupd h⟩

/-- Witness for C10 at a concrete input: updating project/resource "b" in
["a", "b"] keeps the length and leaves the record with id "a" unchanged. -/
theorem c10_witness :
    ([exProjA, exProjBUpdated] : List Record).length
        = ([exProjA, exProjB] : List Record).length ∧
    ([exProjA, exProjBUpdated] : List Record).get ⟨0, by decide⟩
        = ([exProjA, exProjB] : List Record).get ⟨0, by decide⟩ ∧
    ([exProjA, exResBUpdated] : List Record).length
        = ([exProjA, exProjB] : List Record).length := by
  have h1 := c10_update_frame.1 [exProjA, exProjB] "b" [("x", Value.vnum 1)] "t"
      exProjBUpdated [exProjA, exProjBUpdated] (by decide)
  have h2 := c10_update_frame.2 [exProjA, exProjB] "b" [("x", Value.vnum 1)]
      exResBUpdated [exProjA, exResBUpdated] (by decide)
  exact ⟨h1.1, h1.2 0 (by decide) (by decide) (by decide), h2.1⟩

end ProjectTracking
